import Mathlib

/-!
Shallow embedding of `src/app/sagas/AISaga.ts` (battle-city).

The file models:
- the per-agent command-interpreter state of `handleCommands`
  (`fire`, `nextDirection`, `forwardLength`, `startPos`);
- the direction/forward intent provider `getAIInput` and the fire
  intent provider (the closure forked to `fireController`);
- the main command loop body (one `AICommand` consumed per step),
  including the `throw new Error()` branch for unrecognized command
  kinds and the null-tank dereference in the `my-fire-info` query;
- the supervisor `AIMasterSaga` (`taskMap` registry, `addAI`).

Positions and numeric fields are modelled as `Int`; game-global state
(the tank selected for this player, the map snapshot, the tanks list,
the cooldowns accessor, the bullets list) is an explicit `GameState`
record passed to each step, mirroring the `select` effects.
-/

/-- Facing directions, the TS string union of up, down, left, right. -/
inductive Direction
  | up
  | down
  | left
  | right
  deriving DecidableEq

/-- Fields of a tank record that this subsystem reads: identity,
facing direction, the two coordinates, and the bullet limit. -/
structure TankRecord where
  tankId : Nat
  direction : Direction
  x : Int
  y : Int
  bulletLimit : Int
  deriving DecidableEq

/-- Modelled from the spec: `getDirectionInfo` from `utils/common`
(code of the repository outside `src/`) selects the movement axis for
a facing direction; the spec calls it "the current coordinate on the
facing axis". Horizontal directions use `x`, vertical ones use `y`. -/
def axisCoord (t : TankRecord) : Int :=
  match t.direction with
  | .left => t.x
  | .right => t.x
  | .up => t.y
  | .down => t.y

/-- Bullet records, as far as this subsystem reads them: the owner. -/
structure Bullet where
  tankId : Nat
  deriving DecidableEq

/-- Snapshot of game-global state read via `select`: the bound
player's tank (if any), the map snapshot (opaque handle), all tanks,
the cooldown accessor by tank id, and the in-flight bullets. -/
structure GameState where
  tank : Option TankRecord
  map : Int
  tanks : List TankRecord
  cooldowns : Nat → Int
  bullets : List Bullet

/-- Commands sent from the AI worker to the game. The `query` payload
is the raw string the code compares against; `other` stands for any
command whose `type` tag is none of the four recognized kinds. -/
inductive AICommand
  | forward (forwardLength : Int)
  | fire
  | turn (direction : Direction)
  | query (q : String)
  | other (kind : String)
  deriving DecidableEq

/-- Query results carried by a `query-result` note. -/
inductive QueryResult
  | myTankInfo (tank : Option TankRecord)
  | mapInfo (map : Int)
  | tanksInfo (tanks : List TankRecord)
  | myFireInfo (bulletCount : Nat) (canFire : Bool) (cooldown : Int) (bulletLimit : Int)
  deriving DecidableEq

/-- Notes sent from the game to the AI worker. -/
inductive Note
  | bulletComplete
  | reach
  | queryResult (result : QueryResult)
  deriving DecidableEq

/-- Mutable local state of one `handleCommands` instance. -/
structure AIState where
  fire : Bool
  nextDirection : Option Direction
  forwardLength : Int
  startPos : Int
  deriving DecidableEq

/-- Intents returned to `directionController` by `getAIInput`. -/
inductive AIInput
  | turn (direction : Direction)
  | forward (maxDistance : Int)
  deriving DecidableEq

/-- The `forwardLength > 0` branch of `getAIInput`: compute the moved
distance along the facing axis; on exact arrival clear the forward
state and emit a `reach` note, otherwise return a forward intent with
the remaining distance. -/
def forwardStep (tank : TankRecord) (s : AIState) : Option AIInput × AIState × List Note :=
  if s.forwardLength > 0 then
    let movedLength : Int := |axisCoord tank - s.startPos|
    let maxDistance : Int := s.forwardLength - movedLength
    if movedLength = s.forwardLength then
      (none, { s with forwardLength := 0 }, [Note.reach])
    else
      (some (AIInput.forward maxDistance), s, [])
  else
    (none, s, [])

/-- The direction/forward intent provider `getAIInput`: yields no
intent when the bound tank is absent; consumes a pending direction
(clearing forward progress) when the tank faces elsewhere; otherwise
falls through to the forward branch. -/
def getAIInput (tank : Option TankRecord) (s : AIState) : Option AIInput × AIState × List Note :=
  match tank with
  | none => (none, s, [])
  | some t =>
    match s.nextDirection with
    | some d =>
      if t.direction = d then
        forwardStep t s
      else
        (some (AIInput.turn d), { s with nextDirection := none, forwardLength := 0 }, [])
    | none => forwardStep t s

/-- The fire intent provider forked to `fireController`: returns the
`fire` flag and clears it when set. -/
def fireProvider (s : AIState) : Bool × AIState :=
  if s.fire then
    (true, { s with fire := false })
  else
    (false, s)

/-- Failure outcomes of one command-loop iteration: the
`throw new Error()` on an unrecognized command kind, and the
dereference of a null tank in the `my-fire-info` query
(`cooldowns.get(tank.tankId)` with `tank == null`). -/
inductive InterpError
  | protocolError
  | nullTank
  deriving DecidableEq

/-- One iteration of the `handleCommands` main loop: consume a single
command against a snapshot of game state, returning the updated
interpreter state and the notes put on the note channel, or an error
where the TS code throws. -/
def handleCommand (g : GameState) (s : AIState) (c : AICommand) :
    Except InterpError (AIState × List Note) :=
  match c with
  | .forward len =>
    match g.tank with
    | none => .ok (s, [])
    | some t => .ok ({ s with startPos := axisCoord t, forwardLength := len }, [])
  | .fire => .ok ({ s with fire := true }, [])
  | .turn d => .ok ({ s with nextDirection := some d }, [])
  | .query q =>
    if q = "my-tank" then
      .ok (s, [Note.queryResult (QueryResult.myTankInfo g.tank)])
    else if q = "map" then
      .ok (s, [Note.queryResult (QueryResult.mapInfo g.map)])
    else if q = "tanks" then
      .ok (s, [Note.queryResult (QueryResult.tanksInfo g.tanks)])
    else if q = "my-fire-info" then
      match g.tank with
      | none => .error .nullTank
      | some t =>
        let cooldown : Int := g.cooldowns t.tankId
        let bulletCount : Nat := (g.bullets.filter (fun b => b.tankId = t.tankId)).length
        let canFire : Bool := decide ((bulletCount : Int) < t.bulletLimit ∧ cooldown ≤ 0)
        .ok (s, [Note.queryResult
          (QueryResult.myFireInfo bulletCount canFire cooldown t.bulletLimit)])
    else
      .ok (s, [])
  | .other _ => .error .protocolError

/-- Interleaved interactions with one interpreter instance: a command
arriving on the command channel (with the game state it observes), a
poll of the direction/forward provider (with the tank it observes),
or a poll of the fire provider. -/
inductive AgentEvent
  | cmd (g : GameState) (c : AICommand)
  | pollDir (tank : Option TankRecord)
  | pollFire

/-- Apply one interaction to the interpreter state; `none` when the
command loop throws (which kills the interpreter instance). -/
def stepEvent (s : AIState) (e : AgentEvent) : Option (AIState × List Note) :=
  match e with
  | .cmd g c =>
    match handleCommand g s c with
    | .ok r => some r
    | .error _ => none
  | .pollDir tank =>
    let r := getAIInput tank s
    some (r.2.1, r.2.2)
  | .pollFire => some ((fireProvider s).2, [])

/-- Run a sequence of interactions, collecting all emitted notes;
stops (keeping notes so far) when the interpreter throws. -/
def runEvents (s : AIState) (evs : List AgentEvent) : AIState × List Note :=
  match evs with
  | [] => (s, [])
  | e :: rest =>
    match stepEvent s e with
    | none => (s, [])
    | some (s1, ns) =>
      let r := runEvents s1 rest
      (r.1, ns ++ r.2)

/-- An event is a `forward` command arriving on the command channel. -/
def isForwardCmd : AgentEvent → Bool
  | .cmd _ (.forward _) => true
  | _ => false

/-- A command is the `my-fire-info` query. -/
def isMyFireInfoQuery : AICommand → Bool
  | .query q => q = "my-fire-info"
  | _ => false

/-- A command has an unrecognized kind (the final `else` branch). -/
def isOtherCmd : AICommand → Bool
  | .other _ => true
  | _ => false

/-- Output effects of the supervisor `AIMasterSaga`: cancelling a
session task, dispatching `CREATE_PLAYER`, dispatching
`REMOVE_FIRST_REMAINING_ENEMY`, spawning a tank, spawning the
`AIWorkerSaga` session task, dispatching `ACTIVATE_PLAYER`. -/
inductive MEffect
  | cancelSession (playerName : String)
  | createPlayer (playerName : String)
  | removeFirstRemainingEnemy
  | spawnTank (level : String) (hp : Int)
  | startSession (playerName : String)
  | activatePlayer (playerName : String)
  deriving DecidableEq

/-- Supervisor state: the registry of player names with a running
session task (`taskMap`, JS-object keys modelled as a list), and the
fresh-identity counter `nextAIPlayerIndex`. -/
structure MasterState where
  taskMap : List String
  nextAIPlayerIndex : Nat
  deriving DecidableEq

/-- The `addAI` procedure: if the remaining-enemies pool is nonempty,
allocate a fresh `AI-<n>` identity, create and activate the player
and its tank (hp 4 for the armor tier, 1 otherwise), and register the
spawned session in `taskMap`; otherwise do nothing. -/
def addAI (rem : List String) (ms : MasterState) : MasterState × List MEffect :=
  match rem with
  | [] => (ms, [])
  | level :: _ =>
    let playerName := "AI-" ++ toString ms.nextAIPlayerIndex
    let hp : Int := if level = "armor" then 4 else 1
    ({ taskMap := ms.taskMap ++ [playerName],
       nextAIPlayerIndex := ms.nextAIPlayerIndex + 1 },
     [MEffect.createPlayer playerName,
      MEffect.removeFirstRemainingEnemy,
      MEffect.spawnTank level hp,
      MEffect.startSession playerName,
      MEffect.activatePlayer playerName])

/-- Lifecycle events the supervisor takes: `LOAD_STAGE`, `KILL`
(with the killed tank's side and its player's name), `GAMEOVER`. -/
inductive MasterEvent
  | loadStage
  | kill (side : String) (playerName : String)
  | gameOver

/-- One iteration of the `AIMasterSaga` loop (population target
`max = 1`). A `KILL` of an AI tank cancels and unregisters that
player's task, then runs `addAI` once; cancelling an unregistered
name is the `task.cancel()` on `undefined` and errors. `GAMEOVER`
cancels every registered task and clears the registry. -/
def handleMasterEvent (rem : List String) (e : MasterEvent) (ms : MasterState) :
    Except Unit (MasterState × List MEffect) :=
  match e with
  | .loadStage => .ok (addAI rem ms)
  | .kill side name =>
    if side = "ai" then
      if name ∈ ms.taskMap then
        let ms1 : MasterState := { ms with taskMap := ms.taskMap.erase name }
        let r := addAI rem ms1
        .ok (r.1, MEffect.cancelSession name :: r.2)
      else .error ()
    else .ok (ms, [])
  | .gameOver => .ok ({ ms with taskMap := [] }, ms.taskMap.map MEffect.cancelSession)

/-! ## Shared lemmas -/

/-- The fire provider never changes the forward fields. -/
lemma fireProvider_forwardLength (s : AIState) :
    (fireProvider s).2.forwardLength = s.forwardLength := by
  unfold fireProvider
  split <;> rfl

/-- When no forward movement is pending, a poll of the
direction/forward provider emits no note and keeps
`forwardLength = 0`. -/
lemma getAIInput_of_forwardLength_zero (tank : Option TankRecord) (s : AIState)
    (hf : s.forwardLength = 0) :
    (getAIInput tank s).2.1.forwardLength = 0 ∧ (getAIInput tank s).2.2 = [] := by
  unfold getAIInput forwardStep
  cases tank with
  | none => exact ⟨hf, rfl⟩
  | some t =>
    cases hd : s.nextDirection with
    | none => simp [hf]
    | some d =>
      by_cases hdir : t.direction = d
      · simp [hdir, hf]
      · simp [hdir]

/-- A successfully handled `query` command leaves the interpreter
state unchanged and never emits a `reach` note. -/
lemma handleCommand_query_spec (g : GameState) (s : AIState) (q : String)
    (s1 : AIState) (ns : List Note)
    (h : handleCommand g s (.query q) = .ok (s1, ns)) :
    s1 = s ∧ Note.reach ∉ ns := by
  rcases htank : g.tank with _ | t <;>
    simp only [handleCommand, htank] at h <;> split_ifs at h <;>
    injection h with h2 <;> injection h2 with ha hb <;> subst ha <;> subst hb <;>
    exact ⟨rfl, by simp⟩

/-- Any step other than a `forward` command preserves
`forwardLength = 0` and emits no `reach` note. -/
lemma stepEvent_no_reach (s : AIState) (e : AgentEvent)
    (hf : s.forwardLength = 0) (he : isForwardCmd e = false)
    (s1 : AIState) (ns : List Note) (hstep : stepEvent s e = some (s1, ns)) :
    s1.forwardLength = 0 ∧ Note.reach ∉ ns := by
  cases e with
  | pollFire =>
    simp only [stepEvent, Option.some.injEq, Prod.mk.injEq] at hstep
    obtain ⟨h1, h2⟩ := hstep
    subst h1; subst h2
    exact ⟨(fireProvider_forwardLength s).trans hf, by simp⟩
  | pollDir tank =>
    simp only [stepEvent, Option.some.injEq, Prod.mk.injEq] at hstep
    obtain ⟨h1, h2⟩ := hstep
    subst h1; subst h2
    obtain ⟨ha, hb⟩ := getAIInput_of_forwardLength_zero tank s hf
    exact ⟨ha, by simp [hb]⟩
  | cmd g c =>
    cases c with
    | forward len => simp [isForwardCmd] at he
    | fire =>
      simp only [stepEvent, handleCommand, Option.some.injEq, Prod.mk.injEq] at hstep
      obtain ⟨h1, h2⟩ := hstep
      subst h1; subst h2
      exact ⟨hf, by simp⟩
    | turn d =>
      simp only [stepEvent, handleCommand, Option.some.injEq, Prod.mk.injEq] at hstep
      obtain ⟨h1, h2⟩ := hstep
      subst h1; subst h2
      exact ⟨hf, by simp⟩
    | other kind => simp [stepEvent, handleCommand] at hstep
    | query q =>
      simp only [stepEvent] at hstep
      rcases hq : handleCommand g s (.query q) with e0 | p0
      · rw [hq] at hstep
        exact absurd hstep (by simp)
      · rw [hq] at hstep
        simp only [Option.some.injEq] at hstep
        subst hstep
        obtain ⟨hs1, hn⟩ := handleCommand_query_spec g s q s1 ns hq
        exact ⟨hs1 ▸ hf, hn⟩

/-- Starting from a state with no pending forward movement, a run of
interactions containing no `forward` command never emits a `reach`
note, and leaves `forwardLength = 0`. -/
lemma runEvents_no_reach (evs : List AgentEvent) (s : AIState)
    (hf : s.forwardLength = 0) (he : ∀ e ∈ evs, isForwardCmd e = false) :
    Note.reach ∉ (runEvents s evs).2 ∧ (runEvents s evs).1.forwardLength = 0 := by
  induction evs generalizing s with
  | nil => exact ⟨by simp [runEvents], by simpa [runEvents] using hf⟩
  | cons e rest ih =>
    unfold runEvents
    cases hstep : stepEvent s e with
    | none => exact ⟨by simp, by simpa using hf⟩
    | some p =>
      obtain ⟨s1, ns⟩ := p
      obtain ⟨ha, hb⟩ := stepEvent_no_reach s e hf (he e (by simp)) s1 ns hstep
      obtain ⟨hc, hd⟩ := ih s1 ha (fun x hx => he x (by simp [hx]))
      refine ⟨?_, by simpa using hd⟩
      simp only [List.mem_append]
      rintro (h | h)
      · exact hb h
      · exact hc h

/-! ## Claim theorems -/

/-- C1: for a forward command with `forwardLength = L`, while the
distance moved along the facing axis since the command is strictly
below `L`, each poll of the direction/forward provider returns a
forward intent with `maxDistance = L - moved`; the first poll at
which `moved = L` emits exactly one `reach` note, clears the forward
state and returns no intent; and from a cleared state no `reach` note
is emitted by any interaction sequence containing no new forward
command. -/
theorem forward_intent_provider_correct :
    (∀ (tank : TankRecord) (s : AIState),
      s.nextDirection = none → 0 < s.forwardLength →
      |axisCoord tank - s.startPos| < s.forwardLength →
      getAIInput (some tank) s =
        (some (AIInput.forward (s.forwardLength - |axisCoord tank - s.startPos|)), s, [])) ∧
    (∀ (tank : TankRecord) (s : AIState),
      s.nextDirection = none → 0 < s.forwardLength →
      |axisCoord tank - s.startPos| = s.forwardLength →
      getAIInput (some tank) s = (none, { s with forwardLength := 0 }, [Note.reach])) ∧
    (∀ (s : AIState) (evs : List AgentEvent),
      s.forwardLength = 0 → (∀ e ∈ evs, isForwardCmd e = false) →
      Note.reach ∉ (runEvents s evs).2) := by
  refine ⟨?_, ?_, ?_⟩
  · intro tank s hnd hpos hlt
    simp [getAIInput, hnd, forwardStep, hpos, ne_of_lt hlt]
  · intro tank s hnd hpos heq
    simp [getAIInput, hnd, forwardStep, hpos, heq]
  · intro s evs hf he
    exact (runEvents_no_reach evs s hf he).1

/-- Witness for C1 at concrete inputs: a tank at `y = 3` facing up
with `startPos = 0` and `forwardLength = 5` yields a forward intent
of remaining distance 2; at `y = 5` it yields the `reach` note and a
cleared state; and a poll from the cleared state emits no `reach`. -/
theorem forward_intent_provider_correct_witness :
    getAIInput (some ⟨0, Direction.up, 0, 3, 1⟩) ⟨false, none, 5, 0⟩ =
      (some (AIInput.forward 2), ⟨false, none, 5, 0⟩, []) ∧
    getAIInput (some ⟨0, Direction.up, 0, 5, 1⟩) ⟨false, none, 5, 0⟩ =
      (none, ⟨false, none, 0, 0⟩, [Note.reach]) ∧
    Note.reach ∉
      (runEvents ⟨false, none, 0, 0⟩ [AgentEvent.pollDir (some ⟨0, Direction.up, 0, 3, 1⟩)]).2 := by
  refine ⟨?_, ?_, ?_⟩
  · exact (forward_intent_provider_correct.1 ⟨0, Direction.up, 0, 3, 1⟩ ⟨false, none, 5, 0⟩
      rfl (by decide) (by decide)).trans (by decide)
  · exact (forward_intent_provider_correct.2.1 ⟨0, Direction.up, 0, 5, 1⟩ ⟨false, none, 5, 0⟩
      rfl (by decide) (by decide)).trans (by decide)
  · exact forward_intent_provider_correct.2.2 ⟨false, none, 0, 0⟩
      [AgentEvent.pollDir (some ⟨0, Direction.up, 0, 3, 1⟩)] rfl (by decide)

/-- C2: a `my-fire-info` query with the bound tank present emits one
query-result note whose `canFire` equals
`bulletCount < bulletLimit && cooldown <= 0`, where `bulletCount`
counts the in-flight bullets owned by this tank; in particular
`canFire` is false at `bulletCount = bulletLimit` and true at
`cooldown = 0` when the bullet count allows. -/
theorem my_fire_info_canFire_correct (g : GameState) (t : TankRecord) (s : AIState)
    (htank : g.tank = some t) :
    ∃ (bc : Nat) (cf : Bool) (cd : Int),
      handleCommand g s (.query "my-fire-info") =
        .ok (s, [Note.queryResult (QueryResult.myFireInfo bc cf cd t.bulletLimit)]) ∧
      bc = (g.bullets.filter (fun b => b.tankId = t.tankId)).length ∧
      cd = g.cooldowns t.tankId ∧
      (cf = true ↔ ((bc : Int) < t.bulletLimit ∧ cd ≤ 0)) ∧
      ((bc : Int) = t.bulletLimit → cf = false) ∧
      (cd = 0 → (bc : Int) < t.bulletLimit → cf = true) := by
  refine ⟨(g.bullets.filter (fun b => b.tankId = t.tankId)).length,
    decide (((g.bullets.filter (fun b => b.tankId = t.tankId)).length : Int) < t.bulletLimit ∧
      g.cooldowns t.tankId ≤ 0),
    g.cooldowns t.tankId, ?_, rfl, rfl, ?_, ?_, ?_⟩
  · simp [handleCommand, htank]
  · simp
  · intro hbc
    simp [hbc]
  · intro hcd hlt
    simp [hcd, hlt]

/-- Concrete game snapshot: one bound tank (id 7, bullet limit 2),
zero cooldown everywhere, and a single in-flight bullet owned by
tank 7. -/
def gFire : GameState :=
  ⟨some ⟨7, Direction.up, 0, 0, 2⟩, 0, [], fun _ => 0, [⟨7⟩]⟩

/-- Witness for C2: on `gFire` the query reports one bullet in
flight, limit 2, cooldown 0, hence `canFire = true`. -/
theorem my_fire_info_canFire_correct_witness :
    ∃ (bc : Nat) (cf : Bool) (cd : Int),
      handleCommand gFire ⟨false, none, 0, 0⟩ (.query "my-fire-info") =
        .ok (⟨false, none, 0, 0⟩, [Note.queryResult (QueryResult.myFireInfo bc cf cd 2)]) ∧
      bc = (gFire.bullets.filter (fun b => b.tankId = 7)).length ∧
      cd = gFire.cooldowns 7 ∧
      (cf = true ↔ ((bc : Int) < 2 ∧ cd ≤ 0)) ∧
      ((bc : Int) = 2 → cf = false) ∧
      (cd = 0 → (bc : Int) < 2 → cf = true) :=
  my_fire_info_canFire_correct gFire ⟨7, Direction.up, 0, 0, 2⟩ ⟨false, none, 0, 0⟩ rfl

/-- C3: issuing a `turn` command while a forward movement is in
progress leaves the forward length untouched, but the poll that
consumes the pending direction (the tank faces differently) clears
the forward progress to 0, and no `reach` note is emitted by any
later interaction sequence without a new forward command. -/
theorem turn_interrupts_forward (g : GameState) (s : AIState) (d : Direction)
    (tank : TankRecord) (_hfwd : 0 < s.forwardLength) (hdir : tank.direction ≠ d) :
    handleCommand g s (.turn d) = .ok ({ s with nextDirection := some d }, []) ∧
    getAIInput (some tank) { s with nextDirection := some d } =
      (some (AIInput.turn d), { s with nextDirection := none, forwardLength := 0 }, []) ∧
    (∀ evs : List AgentEvent, (∀ e ∈ evs, isForwardCmd e = false) →
      Note.reach ∉ (runEvents { s with nextDirection := none, forwardLength := 0 } evs).2) := by
  refine ⟨rfl, ?_, ?_⟩
  · simp [getAIInput, hdir]
  · intro evs he
    exact (runEvents_no_reach evs _ rfl he).1

/-- Witness for C3: with `forwardLength = 5` pending, a `turn left`
command followed by a poll of a tank facing up consumes the turn,
clears the forward progress, and a subsequent fire poll emits no
`reach`. -/
theorem turn_interrupts_forward_witness :
    handleCommand gFire ⟨false, none, 5, 0⟩ (.turn Direction.left) =
      .ok (⟨false, some Direction.left, 5, 0⟩, []) ∧
    getAIInput (some ⟨0, Direction.up, 0, 0, 1⟩) ⟨false, some Direction.left, 5, 0⟩ =
      (some (AIInput.turn Direction.left), ⟨false, none, 0, 0⟩, []) ∧
    Note.reach ∉ (runEvents ⟨false, none, 0, 0⟩ [AgentEvent.pollFire]).2 := by
  have h := turn_interrupts_forward gFire ⟨false, none, 5, 0⟩ Direction.left
    ⟨0, Direction.up, 0, 0, 1⟩ (by decide) (by decide)
  exact ⟨h.1, h.2.1, h.2.2 [AgentEvent.pollFire] (by decide)⟩

/-- C4: the fire provider is edge-triggered: a `fire` command sets
the flag; the next poll returns `true` and clears it; a second poll
without an intervening `fire` command returns `false`. -/
theorem fire_provider_edge_triggered (g : GameState) (s : AIState) :
    handleCommand g s .fire = .ok ({ s with fire := true }, []) ∧
    fireProvider { s with fire := true } = (true, { s with fire := false }) ∧
    fireProvider { s with fire := false } = (false, { s with fire := false }) := by
  refine ⟨rfl, ?_, ?_⟩ <;> simp [fireProvider]

/-- Concrete game snapshot in which the bound actor is absent. -/
def gAbsent : GameState := ⟨none, 0, [], fun _ => 0, []⟩

/-- The command loop throws only on an unrecognized command kind or
on a `my-fire-info` query with the bound tank absent. -/
lemma handleCommand_error_cases (g : GameState) (s : AIState) (c : AICommand)
    (err : InterpError) (h : handleCommand g s c = .error err) :
    isOtherCmd c = true ∨ (isMyFireInfoQuery c = true ∧ g.tank = none) := by
  cases c with
  | forward len => rcases htank : g.tank with _ | t <;> simp [handleCommand, htank] at h
  | fire => simp [handleCommand] at h
  | turn d => simp [handleCommand] at h
  | other k => simp [isOtherCmd]
  | query q =>
    rcases htank : g.tank with _ | t <;> simp only [handleCommand, htank] at h <;>
      split_ifs at h <;> simp_all [isMyFireInfoQuery]

/-- C5 counterexample: with the bound actor absent, the
`my-fire-info` query handler is not benign: it dereferences the null
tank and fails, refuting "never an error" for every command type. -/
theorem absent_actor_my_fire_info_errors :
    gAbsent.tank = none ∧
    handleCommand gAbsent ⟨false, none, 0, 0⟩ (.query "my-fire-info") =
      .error InterpError.nullTank := by
  exact ⟨rfl, rfl⟩

/-- C5 amended: with the bound actor absent, a forward command is
ignored leaving state unchanged, a `my-tank` query emits the absent
marker, and every command other than an unrecognized kind and the
`my-fire-info` query succeeds without error; the `my-fire-info`
query, however, fails on the null tank. -/
theorem absent_actor_benign_except_fire_info (g : GameState) (s : AIState)
    (habs : g.tank = none) :
    (∀ len : Int, handleCommand g s (.forward len) = .ok (s, [])) ∧
    handleCommand g s (.query "my-tank") =
      .ok (s, [Note.queryResult (QueryResult.myTankInfo none)]) ∧
    handleCommand g s (.query "my-fire-info") = .error InterpError.nullTank ∧
    (∀ c : AICommand, isOtherCmd c = false → isMyFireInfoQuery c = false →
      ∃ r, handleCommand g s c = .ok r) := by
  refine ⟨?_, ?_, ?_, ?_⟩
  · intro len
    simp [handleCommand, habs]
  · simp [handleCommand, habs]
  · simp [handleCommand, habs]
  · intro c hoth hq
    rcases h : handleCommand g s c with err | r
    · rcases handleCommand_error_cases g s c err h with h1 | h2
      · rw [hoth] at h1
        exact absurd h1 (by simp)
      · rw [hq] at h2
        exact absurd h2.1 (by simp)
    · exact ⟨r, rfl⟩

/-- Witness for the amended C5 on the absent-actor snapshot. -/
theorem absent_actor_benign_except_fire_info_witness :
    handleCommand gAbsent ⟨false, none, 0, 0⟩ (.forward 3) = .ok (⟨false, none, 0, 0⟩, []) ∧
    handleCommand gAbsent ⟨false, none, 0, 0⟩ (.query "my-tank") =
      .ok (⟨false, none, 0, 0⟩, [Note.queryResult (QueryResult.myTankInfo none)]) ∧
    handleCommand gAbsent ⟨false, none, 0, 0⟩ (.query "my-fire-info") =
      .error InterpError.nullTank ∧
    (∃ r, handleCommand gAbsent ⟨false, none, 0, 0⟩ (.turn Direction.up) = .ok r) := by
  have h := absent_actor_benign_except_fire_info gAbsent ⟨false, none, 0, 0⟩ rfl
  exact ⟨h.1 3, h.2.1, h.2.2.1, h.2.2.2 (.turn Direction.up) (by decide) (by decide)⟩

/-- C6 counterexample: `query` is a recognized command kind, yet the
`my-fire-info` query with the bound actor absent throws, refuting
"all recognized command kinds are handled without throwing". -/
theorem recognized_kind_can_throw :
    isOtherCmd (AICommand.query "my-fire-info") = false ∧
    handleCommand gAbsent ⟨false, none, 0, 0⟩ (.query "my-fire-info") =
      .error InterpError.nullTank := by
  exact ⟨rfl, rfl⟩

/-- C6 amended: any command whose kind is none of forward, fire,
turn, query terminates the interpreter with a protocol error (the
run stops there); recognized kinds never yield a protocol error, and
throw only in the `my-fire-info`-with-absent-actor case. -/
theorem unrecognized_kind_protocol_error (g : GameState) (s : AIState) (kind : String)
    (_h1 : kind ≠ "forward") (_h2 : kind ≠ "fire") (_h3 : kind ≠ "turn") (_h4 : kind ≠ "query") :
    handleCommand g s (.other kind) = .error InterpError.protocolError ∧
    (∀ rest : List AgentEvent, runEvents s (AgentEvent.cmd g (.other kind) :: rest) = (s, [])) ∧
    (∀ c : AICommand, isOtherCmd c = false →
      ¬(isMyFireInfoQuery c = true ∧ g.tank = none) →
      ∃ r, handleCommand g s c = .ok r) := by
  refine ⟨rfl, ?_, ?_⟩
  · intro rest
    simp [runEvents, stepEvent, handleCommand]
  · intro c hoth hnot
    rcases h : handleCommand g s c with err | r
    · rcases handleCommand_error_cases g s c err h with ho | hmf
      · rw [hoth] at ho
        exact absurd ho (by simp)
      · exact absurd hmf hnot
    · exact ⟨r, rfl⟩

/-- Witness for the amended C6: an unrecognized kind errors and halts
the run, while a recognized `fire` command succeeds. -/
theorem unrecognized_kind_protocol_error_witness :
    handleCommand gFire ⟨false, none, 0, 0⟩ (.other "dance") =
      .error InterpError.protocolError ∧
    runEvents ⟨false, none, 0, 0⟩
      [AgentEvent.cmd gFire (.other "dance"), AgentEvent.pollFire] = (⟨false, none, 0, 0⟩, []) ∧
    (∃ r, handleCommand gFire ⟨false, none, 0, 0⟩ .fire = .ok r) := by
  have h := unrecognized_kind_protocol_error gFire ⟨false, none, 0, 0⟩ "dance"
    (by decide) (by decide) (by decide) (by decide)
  exact ⟨h.1, h.2.1 [AgentEvent.pollFire], h.2.2 .fire (by decide) (by decide)⟩

/-- C9 counterexample: with the pending direction equal to the
facing direction, `forwardLength = 5 > 0`, and the tank exactly 5
units from `startPos`, the poll produces no intent and clears the
forward progress (emitting `reach`), refuting "forward progress is
not cleared, and if forwardLength > 0 a forward intent is still
produced". -/
theorem pending_equal_direction_counterexample :
    (⟨false, some Direction.up, 5, 0⟩ : AIState).nextDirection =
      some (⟨0, Direction.up, 0, 5, 1⟩ : TankRecord).direction ∧
    (0 : Int) < (⟨false, some Direction.up, 5, 0⟩ : AIState).forwardLength ∧
    getAIInput (some ⟨0, Direction.up, 0, 5, 1⟩) ⟨false, some Direction.up, 5, 0⟩ =
      (none, ⟨false, some Direction.up, 0, 0⟩, [Note.reach]) := by
  exact ⟨rfl, by decide, by decide⟩

/-- C9 amended: when the pending direction equals the facing
direction the turn branch is not taken: the pending direction is
never cleared, and the forward branch runs normally — a forward
intent with the remaining distance while the moved distance differs
from `forwardLength`, the `reach`/clear behavior when it is exactly
reached, no intent when no forward is pending; the pending turn is
consumed exactly on a poll whose tank faces differently. -/
theorem pending_equal_direction_no_turn (tank : TankRecord) (s : AIState) (d : Direction)
    (hnd : s.nextDirection = some d) (hdir : tank.direction = d) :
    (getAIInput (some tank) s).2.1.nextDirection = some d ∧
    (0 < s.forwardLength → |axisCoord tank - s.startPos| ≠ s.forwardLength →
      getAIInput (some tank) s =
        (some (AIInput.forward (s.forwardLength - |axisCoord tank - s.startPos|)), s, [])) ∧
    (0 < s.forwardLength → |axisCoord tank - s.startPos| = s.forwardLength →
      getAIInput (some tank) s = (none, { s with forwardLength := 0 }, [Note.reach])) ∧
    (s.forwardLength ≤ 0 → getAIInput (some tank) s = (none, s, [])) ∧
    (∀ tank2 : TankRecord, tank2.direction ≠ d →
      getAIInput (some tank2) s =
        (some (AIInput.turn d), { s with nextDirection := none, forwardLength := 0 }, [])) := by
  have hmain : getAIInput (some tank) s = forwardStep tank s := by
    simp [getAIInput, hnd, hdir]
  refine ⟨?_, ?_, ?_, ?_, ?_⟩
  · rw [hmain]
    simp only [forwardStep]
    split_ifs <;> simp [hnd]
  · intro hpos hne
    rw [hmain]
    simp [forwardStep, hpos, hne]
  · intro hpos heq
    rw [hmain]
    simp [forwardStep, hpos, heq]
  · intro hle
    rw [hmain]
    simp [forwardStep, not_lt.mpr hle]
  · intro tank2 hdir2
    simp [getAIInput, hnd, hdir2]

/-- Witness for the amended C9: facing up with pending up, distance
moved 3 of 5 still yields a forward intent of 2 with the pending
direction intact; a tank facing left consumes the pending turn. -/
theorem pending_equal_direction_no_turn_witness :
    (getAIInput (some ⟨0, Direction.up, 0, 3, 1⟩)
        ⟨false, some Direction.up, 5, 0⟩).2.1.nextDirection = some Direction.up ∧
    getAIInput (some ⟨0, Direction.up, 0, 3, 1⟩) ⟨false, some Direction.up, 5, 0⟩ =
      (some (AIInput.forward 2), ⟨false, some Direction.up, 5, 0⟩, []) ∧
    getAIInput (some ⟨1, Direction.left, 0, 0, 1⟩) ⟨false, some Direction.up, 5, 0⟩ =
      (some (AIInput.turn Direction.up), ⟨false, none, 0, 0⟩, []) := by
  have h := pending_equal_direction_no_turn ⟨0, Direction.up, 0, 3, 1⟩
    ⟨false, some Direction.up, 5, 0⟩ Direction.up rfl rfl
  exact ⟨h.1, (h.2.1 (by decide) (by decide)).trans (by decide),
    h.2.2.2.2 ⟨1, Direction.left, 0, 0, 1⟩ (by decide)⟩

/-- C10: a `query` command whose query string is none of the four
recognized ones falls through the if-chain: no note, no error, state
unchanged, and the run continues exactly as if the command had not
arrived. -/
theorem unknown_query_silently_skipped (g : GameState) (s : AIState) (q : String)
    (h1 : q ≠ "my-tank") (h2 : q ≠ "map") (h3 : q ≠ "tanks") (h4 : q ≠ "my-fire-info") :
    handleCommand g s (.query q) = .ok (s, []) ∧
    (∀ rest : List AgentEvent,
      runEvents s (AgentEvent.cmd g (.query q) :: rest) = runEvents s rest) := by
  have hc : handleCommand g s (.query q) = .ok (s, []) := by
    simp [handleCommand, h1, h2, h3, h4]
  refine ⟨hc, ?_⟩
  intro rest
  simp [runEvents, stepEvent, hc]

/-- Witness for C10 at the unknown query string "frobnicate". -/
theorem unknown_query_silently_skipped_witness :
    handleCommand gFire ⟨false, none, 0, 0⟩ (.query "frobnicate") =
      .ok (⟨false, none, 0, 0⟩, []) ∧
    runEvents ⟨false, none, 0, 0⟩
        [AgentEvent.cmd gFire (.query "frobnicate"), AgentEvent.pollFire] =
      runEvents ⟨false, none, 0, 0⟩ [AgentEvent.pollFire] := by
  have h := unknown_query_silently_skipped gFire ⟨false, none, 0, 0⟩ "frobnicate"
    (by decide) (by decide) (by decide) (by decide)
  exact ⟨h.1, h.2 [AgentEvent.pollFire]⟩

/-- An effect is the spawning of a new session task. -/
def isStartSession : MEffect → Bool
  | .startSession _ => true
  | _ => false

/-- C7: a `KILL` of an AI tank whose player is registered cancels
that player's session, removes it from the registry, and runs the
spawn procedure exactly once: with a non-empty remaining-enemies
pool exactly one new session is created and registered (registry
size unchanged); with an empty pool no session is created and the
registry shrinks by one. -/
theorem ai_kill_replacement (rem : List String) (ms : MasterState) (name : String)
    (hmem : name ∈ ms.taskMap) (hnd : ms.taskMap.Nodup)
    (hfresh : ("AI-" ++ toString ms.nextAIPlayerIndex) ∉ ms.taskMap) :
    ∃ ms1 effs, handleMasterEvent rem (.kill "ai" name) ms = .ok (ms1, effs) ∧
      (∃ tail, effs = MEffect.cancelSession name :: tail) ∧
      name ∉ ms1.taskMap ∧
      (effs.filter isStartSession).length = (if rem = [] then 0 else 1) ∧
      (rem = [] → ms1.taskMap = ms.taskMap.erase name ∧
        ms1.taskMap.length + 1 = ms.taskMap.length) ∧
      (rem ≠ [] →
        ms1.taskMap = ms.taskMap.erase name ++ ["AI-" ++ toString ms.nextAIPlayerIndex] ∧
        ms1.taskMap.length = ms.taskMap.length ∧
        ("AI-" ++ toString ms.nextAIPlayerIndex) ∈ ms1.taskMap) := by
  rcases rem with _ | ⟨level, rest⟩
  · refine ⟨{ ms with taskMap := ms.taskMap.erase name }, [MEffect.cancelSession name],
      ?_, ⟨[], rfl⟩, ?_, ?_, ?_, ?_⟩
    · simp [handleMasterEvent, hmem, addAI]
    · exact hnd.not_mem_erase
    · simp [isStartSession]
    · intro _
      refine ⟨rfl, ?_⟩
      exact List.length_erase_add_one hmem
    · intro hne
      exact absurd rfl hne
  · refine ⟨⟨ms.taskMap.erase name ++ ["AI-" ++ toString ms.nextAIPlayerIndex],
        ms.nextAIPlayerIndex + 1⟩,
      MEffect.cancelSession name ::
        [MEffect.createPlayer ("AI-" ++ toString ms.nextAIPlayerIndex),
         MEffect.removeFirstRemainingEnemy,
         MEffect.spawnTank level (if level = "armor" then 4 else 1),
         MEffect.startSession ("AI-" ++ toString ms.nextAIPlayerIndex),
         MEffect.activatePlayer ("AI-" ++ toString ms.nextAIPlayerIndex)],
      ?_, ⟨_, rfl⟩, ?_, ?_, ?_, ?_⟩
    · simp [handleMasterEvent, hmem, addAI]
    · simp only [List.mem_append, List.mem_singleton]
      rintro (h | h)
      · exact hnd.not_mem_erase h
      · exact hfresh (h ▸ hmem)
    · simp [isStartSession]
    · intro h
      exact absurd h (by simp)
    · intro _
      refine ⟨rfl, ?_, by simp⟩
      have h1 := List.length_erase_add_one hmem
      simp only [List.length_append, List.length_singleton]
      omega

/-- Witness for C7: killing the only registered AI player with one
remaining enemy cancels it and registers a fresh identity, keeping
the registry at size one. -/
theorem ai_kill_replacement_witness :
    ∃ ms1 effs,
      handleMasterEvent ["basic"] (.kill "ai" "AI-0") ⟨["AI-0"], 1⟩ = .ok (ms1, effs) ∧
      (∃ tail, effs = MEffect.cancelSession "AI-0" :: tail) ∧
      "AI-0" ∉ ms1.taskMap ∧
      (effs.filter isStartSession).length = (if (["basic"] : List String) = [] then 0 else 1) ∧
      ((["basic"] : List String) = [] → ms1.taskMap = (["AI-0"] : List String).erase "AI-0" ∧
        ms1.taskMap.length + 1 = (["AI-0"] : List String).length) ∧
      ((["basic"] : List String) ≠ [] →
        ms1.taskMap = (["AI-0"] : List String).erase "AI-0" ++ ["AI-" ++ toString 1] ∧
        ms1.taskMap.length = (["AI-0"] : List String).length ∧
        ("AI-" ++ toString 1) ∈ ms1.taskMap) :=
  ai_kill_replacement ["basic"] ⟨["AI-0"], 1⟩ "AI-0" (by decide) (by decide) (by decide)

/-- C8: `GAMEOVER` cancels every session in the registry, in
registry order, and leaves the registry empty. -/
theorem gameover_clears_registry (rem : List String) (ms : MasterState) :
    ∃ ms1 effs, handleMasterEvent rem .gameOver ms = .ok (ms1, effs) ∧
      ms1.taskMap = [] ∧
      effs = ms.taskMap.map MEffect.cancelSession ∧
      ∀ n ∈ ms.taskMap, MEffect.cancelSession n ∈ effs := by
  refine ⟨{ ms with taskMap := [] }, ms.taskMap.map MEffect.cancelSession, rfl, rfl, rfl, ?_⟩
  intro n hn
  exact List.mem_map_of_mem MEffect.cancelSession hn
